import Mathlib

/-!
Shallow embedding of the order/inventory core of the repository
(orders/models.py and orders/views.py).

The embedding models the rows each endpoint of OrderViewSet reads and
writes: the order being operated on, its line items, the product table,
and the inventory-movement log.  Django decimals are modelled as
rationals, timestamps as natural numbers, and the status / change-type
CharFields as the literal strings the source uses.
-/

namespace OrderApi

/-! Status constants from orders/models.py (Order.PENDING etc.). -/

def PENDING : String := "pendiente"

def COMPLETED : String := "completada"

def CANCELED : String := "cancelada"

def CHANGE_UPDATE : String := "update"

def CHANGE_COMPLETED : String := "completed"

def CHANGE_CANCELED : String := "canceled"

def CHANGE_DELETE : String := "delete"

def CHANGE_CREATED : String := "created"

/-- Product row (products app, referenced by orders): id, name, price, stock. -/
structure Product where
  pid : Nat
  name : String
  price : ℚ
  stock : Int
deriving DecidableEq

/-- OrderItem row from orders/models.py, projected to one order:
product FK, quantity (PositiveIntegerField), price (snapshot decimal). -/
structure OrderItem where
  product_id : Nat
  quantity : Nat
  price : ℚ
deriving DecidableEq

/-- Order row from orders/models.py.  The concrete field list of the model
is recorded separately in orderFieldNames. -/
structure Order where
  customer_name : String
  total : ℚ
  status : String
  created_at : Nat
  last_change_at : Nat
  last_change_type : String
deriving DecidableEq

/-- InventoryMovement row (inventory app): product FK, quantity,
movement_type, reason, timestamp.  The timestamp is modelled from the
spec: it is auto-set to the creation time of the row. -/
structure Movement where
  product_id : Nat
  quantity : Nat
  movement_type : String
  reason : String
  timestamp : Nat
deriving DecidableEq

/-- The database state an OrderViewSet action on one order reads and
writes: that order, its items, the product table and the movement log. -/
structure St where
  order : Order
  items : List OrderItem
  products : List Product
  movements : List Movement
deriving DecidableEq

/-- Concrete field names of the Order model (orders/models.py lines
30-36).  Note there is no deleted_at field. -/
def orderFieldNames : List String :=
  ["id", "customer_name", "total", "status", "created_at",
   "last_change_at", "last_change_type"]

/-- Product.objects.get(pk=pid): first product row with the given pk. -/
def findProduct : List Product → Nat → Option Product
  | [], _ => none
  | p :: rest, pid => if p.pid = pid then some p else findProduct rest pid

/-- OrderItem.objects.filter(order=order, product=product).first(). -/
def findItem : List OrderItem → Nat → Option OrderItem
  | [], _ => none
  | it :: rest, pid => if it.product_id = pid then some it else findItem rest pid

/-- Product.objects.filter(pk=pid).update(stock=F("stock") + delta). -/
def updStock (ps : List Product) (pid : Nat) (delta : Int) : List Product :=
  ps.map fun p => if p.pid = pid then { p with stock := p.stock + delta } else p

/-- OrderItem.objects.filter(pk=item.pk).update(quantity=F("quantity") + qty)
where item is the first row matching the product: increment the first
matching row's quantity. -/
def incFirst : List OrderItem → Nat → Nat → List OrderItem
  | [], _, _ => []
  | it :: rest, pid, qty =>
    if it.product_id = pid then { it with quantity := it.quantity + qty } :: rest
    else it :: incFirst rest pid qty

/-- OrderItem.objects.filter(pk=item.pk).update(quantity=F("quantity") - u):
decrement the first matching row's quantity. -/
def decFirst : List OrderItem → Nat → Nat → List OrderItem
  | [], _, _ => []
  | it :: rest, pid, u =>
    if it.product_id = pid then { it with quantity := it.quantity - u } :: rest
    else it :: decFirst rest pid u

/-- item.delete() on the first row matching the product. -/
def delFirst : List OrderItem → Nat → List OrderItem
  | [], _ => []
  | it :: rest, pid =>
    if it.product_id = pid then rest else it :: delFirst rest pid

/-- Line total of an item (quantity times snapshot price). -/
def lineTotal (it : OrderItem) : ℚ := (it.quantity : ℚ) * it.price

/-- Sum of line totals over an item list. -/
def itemsTotal (l : List OrderItem) : ℚ := (l.map lineTotal).sum

/-- InventoryMovement.objects.filter(product=..., movement_type="salida",
reason="venta", timestamp__gte=since).exists()  (views.py lines 87-92). -/
def hasOutflowSince (movs : List Movement) (pid : Nat) (since : Nat) : Bool :=
  movs.any fun m =>
    m.product_id == pid && m.movement_type == "salida" &&
      m.reason == "venta" && since ≤ m.timestamp

/-- One entry of the "Insufficient stock for some products." report
(views.py lines 102-107). -/
structure InsuffLine where
  product_id : Nat
  name : String
  requested : Nat
  available : Int
deriving DecidableEq

/-- The insufficient list built by the validation loop of complete
(views.py lines 99-107): one entry per item whose product's stock is
below the item's quantity. -/
def insufficientLines (s : St) : List InsuffLine :=
  s.items.filterMap fun it =>
    match findProduct s.products it.product_id with
    | some p =>
      if p.stock < (it.quantity : Int) then
        some ⟨it.product_id, p.name, it.quantity, p.stock⟩
      else none
    | none => none

/-- Outcomes of the complete action (views.py lines 74-128). -/
inductive CompleteRes
  | alreadyCompleted
  | invalidTransition
  | insufficientStock (items : List InsuffLine)
  | ok
deriving DecidableEq

/-- Outcomes of add_item.  validationError stands for serializer
rejection (orders/serializers.py, not under src): a missing product or
malformed input never reaches the view body. -/
inductive AddRes
  | orderClosed
  | validationError
  | insufficientStock (name : String) (available : Int)
  | ok
deriving DecidableEq

/-- Outcomes of remove_item. -/
inductive RemoveRes
  | orderClosed
  | validationError
  | itemNotFound
  | ok
deriving DecidableEq

/-- Outcomes of the cancel action. -/
inductive CancelRes
  | invalidTransition
  | alreadyCanceled
  | ok
deriving DecidableEq

/-- Outcomes of destroy: 204 No Content, or an unhandled exception
surfacing as a server error. -/
inductive DestroyRes
  | noContent
  | serverError
deriving DecidableEq

/-- views.py lines 123-126: mark the order completed and touch the audit
fields. -/
def markCompleted (s : St) (now : Nat) : St :=
  { s with order := { s.order with
      status := COMPLETED, last_change_at := now,
      last_change_type := CHANGE_COMPLETED } }

/-- views.py lines 114-121: for every item, decrement the product's stock
by the item quantity and append a salida/venta movement. -/
def reserveAll (s : St) (now : Nat) : St :=
  { s with
    products := s.items.foldl
      (fun ps it => updStock ps it.product_id (-(it.quantity : Int))) s.products,
    movements := s.movements ++
      s.items.map fun it => ⟨it.product_id, it.quantity, "salida", "venta", now⟩ }

/-- The complete action (views.py lines 74-128). -/
def complete (s : St) (now : Nat) : CompleteRes × St :=
  if s.order.status = COMPLETED then (.alreadyCompleted, s)
  else if s.order.status = CANCELED then (.invalidTransition, s)
  else if s.items.all
      (fun it => hasOutflowSince s.movements it.product_id s.order.created_at) then
    (.ok, markCompleted s now)
  else if insufficientLines s = [] then
    (.ok, markCompleted (reserveAll s now) now)
  else
    (.insufficientStock (insufficientLines s), s)

/-- views.py lines 180-193, common tail of add_item: decrement stock,
append a salida/venta movement, add qty times unit_price to the total and
touch the audit fields. -/
def addApply (s : St) (pid qty now : Nat) (unit_price : ℚ)
    (items' : List OrderItem) : St :=
  { order := { s.order with
      total := s.order.total + (qty : ℚ) * unit_price,
      last_change_at := now, last_change_type := CHANGE_UPDATE },
    items := items',
    products := updStock s.products pid (-(qty : Int)),
    movements := s.movements ++ [⟨pid, qty, "salida", "venta", now⟩] }

/-- The add_item action (views.py lines 137-196). -/
def add_item (s : St) (pid qty now : Nat) : AddRes × St :=
  if s.order.status = COMPLETED ∨ s.order.status = CANCELED then (.orderClosed, s)
  else
    match findProduct s.products pid with
    | none => (.validationError, s)
    | some product =>
      if product.stock < (qty : Int) then
        (.insufficientStock product.name product.stock, s)
      else
        match findItem s.items pid with
        | some item =>
          (.ok, addApply s pid qty now item.price (incFirst s.items pid qty))
        | none =>
          (.ok, addApply s pid qty now product.price
            (s.items ++ [⟨pid, qty, product.price⟩]))

/-- views.py lines 241-260, common tail of remove_item: restore stock,
append an entrada/ajuste movement, subtract line_total from the total and
touch the audit fields. -/
def removeApply (s : St) (pid remove_units now : Nat) (line_total : ℚ)
    (items' : List OrderItem) : St :=
  { order := { s.order with
      total := s.order.total - line_total,
      last_change_at := now, last_change_type := CHANGE_UPDATE },
    items := items',
    products := updStock s.products pid (remove_units : Int),
    movements := s.movements ++ [⟨pid, remove_units, "entrada", "ajuste", now⟩] }

/-- The remove_item action (views.py lines 209-263). -/
def remove_item (s : St) (pid dec_qty now : Nat) : RemoveRes × St :=
  if s.order.status = COMPLETED ∨ s.order.status = CANCELED then (.orderClosed, s)
  else
    match findProduct s.products pid with
    | none => (.validationError, s)
    | some _ =>
      match findItem s.items pid with
      | none => (.itemNotFound, s)
      | some item =>
        let remove_units := min dec_qty item.quantity
        if remove_units = item.quantity then
          (.ok, removeApply s pid remove_units now
            ((item.quantity : ℚ) * item.price) (delFirst s.items pid))
        else
          (.ok, removeApply s pid remove_units now
            ((remove_units : ℚ) * item.price) (decFirst s.items pid remove_units))

/-- The cancel action (views.py lines 265-277). -/
def cancel (s : St) (now : Nat) : CancelRes × St :=
  if s.order.status = COMPLETED then (.invalidTransition, s)
  else if s.order.status = CANCELED then (.alreadyCanceled, s)
  else
    (.ok, { s with order := { s.order with
        status := CANCELED, last_change_at := now,
        last_change_type := CHANGE_CANCELED } })

/-- Fields destroy passes to order.save(update_fields=...)
(views.py line 288). -/
def destroyUpdateFields : List String :=
  ["deleted_at", "status", "last_change_at", "last_change_type"]

/-- The destroy action (views.py lines 279-290).  Django's Model.save
raises ValueError when update_fields names anything that is not a
concrete field of the model; the request then fails with a server error
and nothing is persisted (the attribute writes before save were only
in memory).  Only when every name in update_fields is a model field does
the soft delete go through. -/
def destroy (s : St) (now : Nat) : DestroyRes × St :=
  if destroyUpdateFields.all (fun f => orderFieldNames.contains f) then
    (.noContent, { s with order := { s.order with
        status :=
          if s.order.status = CANCELED ∨ s.order.status = COMPLETED then
            s.order.status
          else CANCELED,
        last_change_at := now, last_change_type := CHANGE_DELETE } })
  else
    (.serverError, s)

/-- Number of item rows for a given product. -/
def pidCount (l : List OrderItem) (pid : Nat) : Nat :=
  (l.filter fun it => it.product_id == pid).length

/-- Order states reachable from order creation: a fresh order (total 0,
status pending, no items, defaults from orders/models.py) over arbitrary
product and movement tables, closed under the five actions. -/
inductive Reach : St → Prop
  | init (name : String) (created : Nat) (ps : List Product)
      (movs : List Movement) :
      Reach ⟨⟨name, 0, PENDING, created, created, CHANGE_CREATED⟩, [], ps, movs⟩
  | addStep (s : St) (pid qty now : Nat) : Reach s →
      Reach (add_item s pid qty now).2
  | removeStep (s : St) (pid qty now : Nat) : Reach s →
      Reach (remove_item s pid qty now).2
  | completeStep (s : St) (now : Nat) : Reach s →
      Reach (complete s now).2
  | cancelStep (s : St) (now : Nat) : Reach s →
      Reach (cancel s now).2
  | destroyStep (s : St) (now : Nat) : Reach s →
      Reach (destroy s now).2

/-! Concrete states used to exercise the claims on small inputs. -/

/-- A fresh pending order next to a product with stock 5. -/
def c1St : St :=
  ⟨⟨"a", 0, PENDING, 0, 0, CHANGE_CREATED⟩, [], [⟨1, "A", 10, 5⟩], []⟩

/-- A pending order requesting 5 units of a product with stock 3, whose
product already has a salida/venta movement since order creation. -/
def c2St : St :=
  ⟨⟨"b", 50, PENDING, 0, 0, CHANGE_CREATED⟩, [⟨1, 5, 10⟩],
    [⟨1, "P", 10, 3⟩], [⟨1, 5, "salida", "venta", 0⟩]⟩

/-- A pending order with an insufficient line (P: requested 5, stock 3)
and a sufficient one (Q: requested 1, stock 7), and no movements. -/
def c2PendSt : St :=
  ⟨⟨"b", 54, PENDING, 0, 0, CHANGE_CREATED⟩, [⟨1, 5, 10⟩, ⟨2, 1, 4⟩],
    [⟨1, "P", 10, 3⟩, ⟨2, "Q", 4, 7⟩], []⟩

/-- An order already completed. -/
def c3CompSt : St :=
  ⟨⟨"c", 30, COMPLETED, 0, 1, CHANGE_COMPLETED⟩, [⟨1, 3, 10⟩],
    [⟨1, "A", 10, 4⟩], [⟨1, 3, "salida", "venta", 1⟩]⟩

/-- An order already canceled. -/
def c3CancSt : St :=
  ⟨⟨"c", 30, CANCELED, 0, 1, CHANGE_CANCELED⟩, [⟨1, 3, 10⟩],
    [⟨1, "A", 10, 4⟩], [⟨1, 3, "salida", "venta", 1⟩]⟩

/-- A pending order holding 2 units of a product with zero stock left. -/
def c4St : St :=
  ⟨⟨"d", 20, PENDING, 0, 0, CHANGE_CREATED⟩, [⟨1, 2, 10⟩],
    [⟨1, "P", 10, 0⟩], []⟩

/-- A fresh pending order next to a product with stock 5. -/
def c5St : St :=
  ⟨⟨"e", 0, PENDING, 0, 0, CHANGE_CREATED⟩, [], [⟨1, "A", 10, 5⟩], []⟩

/-- A pending order holding an item at snapshot price 10 while the
product's current price has moved to 12. -/
def c6St : St :=
  ⟨⟨"f", 20, PENDING, 0, 0, CHANGE_CREATED⟩, [⟨1, 2, 10⟩],
    [⟨1, "P", 12, 5⟩], []⟩

/-- A completed order with an item whose stock was reserved. -/
def c7St : St :=
  ⟨⟨"g", 20, COMPLETED, 0, 1, CHANGE_COMPLETED⟩, [⟨1, 2, 10⟩],
    [⟨1, "P", 10, 3⟩], [⟨1, 2, "salida", "venta", 1⟩]⟩

/-- A pending order with a reserved item, candidate for cancelation. -/
def c8St : St :=
  ⟨⟨"h", 20, PENDING, 0, 1, CHANGE_UPDATE⟩, [⟨1, 2, 10⟩],
    [⟨1, "P", 10, 3⟩], [⟨1, 2, "salida", "venta", 1⟩]⟩

/-- A pending order whose single item was added through add_item, so its
product has a salida/venta movement since order creation. -/
def c10St : St :=
  ⟨⟨"j", 50, PENDING, 0, 0, CHANGE_CREATED⟩, [⟨1, 5, 10⟩],
    [⟨1, "P", 10, 3⟩], [⟨1, 5, "salida", "venta", 2⟩]⟩

/-! Helper lemmas about the list-level row operations. -/

theorem itemsTotal_nil : itemsTotal [] = 0 := rfl

theorem itemsTotal_cons (a : OrderItem) (l : List OrderItem) :
    itemsTotal (a :: l) = lineTotal a + itemsTotal l := by
  simp [itemsTotal]

theorem itemsTotal_append (l₁ l₂ : List OrderItem) :
    itemsTotal (l₁ ++ l₂) = itemsTotal l₁ + itemsTotal l₂ := by
  simp [itemsTotal]

theorem itemsTotal_incFirst (l : List OrderItem) (pid qty : Nat) (it : OrderItem)
    (h : findItem l pid = some it) :
    itemsTotal (incFirst l pid qty) = itemsTotal l + (qty : ℚ) * it.price := by
  induction l with
  | nil => simp [findItem] at h
  | cons a rest ih =>
    by_cases ha : a.product_id = pid
    · rw [findItem, if_pos ha] at h
      cases h
      simp only [incFirst, if_pos ha, itemsTotal_cons, lineTotal]
      push_cast
      ring
    · rw [findItem, if_neg ha] at h
      simp only [incFirst, if_neg ha, itemsTotal_cons, ih h]
      ring

theorem itemsTotal_delFirst (l : List OrderItem) (pid : Nat) (it : OrderItem)
    (h : findItem l pid = some it) :
    itemsTotal (delFirst l pid) = itemsTotal l - (it.quantity : ℚ) * it.price := by
  induction l with
  | nil => simp [findItem] at h
  | cons a rest ih =>
    by_cases ha : a.product_id = pid
    · rw [findItem, if_pos ha] at h
      cases h
      simp only [delFirst, if_pos ha, itemsTotal_cons, lineTotal]
      ring
    · rw [findItem, if_neg ha] at h
      simp only [delFirst, if_neg ha, itemsTotal_cons, ih h]
      ring

theorem itemsTotal_decFirst (l : List OrderItem) (pid u : Nat) (it : OrderItem)
    (h : findItem l pid = some it) (hu : u ≤ it.quantity) :
    itemsTotal (decFirst l pid u) = itemsTotal l - (u : ℚ) * it.price := by
  induction l with
  | nil => simp [findItem] at h
  | cons a rest ih =>
    by_cases ha : a.product_id = pid
    · rw [findItem, if_pos ha] at h
      cases h
      simp only [decFirst, if_pos ha, itemsTotal_cons, lineTotal]
      rw [Nat.cast_sub hu]
      ring
    · rw [findItem, if_neg ha] at h
      simp only [decFirst, if_neg ha, itemsTotal_cons, ih h]
      ring

theorem findItem_incFirst (l : List OrderItem) (pid qty : Nat) (it : OrderItem)
    (h : findItem l pid = some it) :
    findItem (incFirst l pid qty) pid = some { it with quantity := it.quantity + qty } := by
  induction l with
  | nil => simp [findItem] at h
  | cons a rest ih =>
    by_cases ha : a.product_id = pid
    · rw [findItem, if_pos ha] at h
      cases h
      simp [incFirst, if_pos ha, findItem, ha]
    · rw [findItem, if_neg ha] at h
      rw [incFirst, if_neg ha, findItem, if_neg ha]
      exact ih h

theorem findItem_append_single (l : List OrderItem) (pid : Nat) (x : OrderItem)
    (h : findItem l pid = none) (hx : x.product_id = pid) :
    findItem (l ++ [x]) pid = some x := by
  induction l with
  | nil => simp [findItem, hx]
  | cons a rest ih =>
    by_cases ha : a.product_id = pid
    · rw [findItem, if_pos ha] at h
      cases h
    · rw [findItem, if_neg ha] at h
      simp only [List.cons_append, findItem, if_neg ha]
      exact ih h

theorem findItem_decFirst (l : List OrderItem) (pid u : Nat) (it : OrderItem)
    (h : findItem l pid = some it) :
    findItem (decFirst l pid u) pid = some { it with quantity := it.quantity - u } := by
  induction l with
  | nil => simp [findItem] at h
  | cons a rest ih =>
    by_cases ha : a.product_id = pid
    · rw [findItem, if_pos ha] at h
      cases h
      simp [decFirst, if_pos ha, findItem, ha]
    · rw [findItem, if_neg ha] at h
      rw [decFirst, if_neg ha, findItem, if_neg ha]
      exact ih h

theorem findItem_eq_none_of_pidCount_zero (l : List OrderItem) (pid : Nat)
    (h : pidCount l pid = 0) : findItem l pid = none := by
  induction l with
  | nil => rfl
  | cons a rest ih =>
    by_cases ha : a.product_id = pid
    · exfalso
      simp [pidCount, List.filter, ha] at h
    · simp only [pidCount, List.filter] at h
      rw [show (a.product_id == pid) = false by simpa using ha] at h
      rw [findItem, if_neg ha]
      exact ih h

theorem findItem_delFirst (l : List OrderItem) (pid : Nat) (it : OrderItem)
    (h : findItem l pid = some it) (hc : pidCount l pid ≤ 1) :
    findItem (delFirst l pid) pid = none := by
  induction l with
  | nil => simp [findItem] at h
  | cons a rest ih =>
    by_cases ha : a.product_id = pid
    · rw [delFirst, if_pos ha]
      apply findItem_eq_none_of_pidCount_zero
      simp only [pidCount, List.filter] at hc ⊢
      rw [show (a.product_id == pid) = true by simpa using ha] at hc
      simpa using Nat.lt_succ_iff.mp (Nat.lt_of_lt_of_le (Nat.lt_succ_self _) hc)
    · rw [findItem, if_neg ha] at h
      rw [delFirst, if_neg ha, findItem, if_neg ha]
      apply ih h
      simp only [pidCount, List.filter] at hc
      rw [show (a.product_id == pid) = false by simpa using ha] at hc
      exact hc

theorem findProduct_updStock_self (ps : List Product) (pid : Nat) (delta : Int) :
    findProduct (updStock ps pid delta) pid =
      (findProduct ps pid).map fun p => { p with stock := p.stock + delta } := by
  induction ps with
  | nil => rfl
  | cons a rest ih =>
    by_cases ha : a.pid = pid
    · simp [updStock, findProduct, ha]
    · simp only [updStock, List.map, if_neg ha, findProduct, ha, ite_false]
      exact ih

/-! Branch characterizations of the five actions. -/

theorem complete_of_completed (s : St) (now : Nat)
    (h : s.order.status = COMPLETED) :
    complete s now = (.alreadyCompleted, s) := by
  rw [complete, if_pos h]

theorem complete_of_canceled (s : St) (now : Nat)
    (h1 : s.order.status ≠ COMPLETED) (h2 : s.order.status = CANCELED) :
    complete s now = (.invalidTransition, s) := by
  rw [complete, if_neg h1, if_pos h2]

theorem complete_applied (s : St) (now : Nat)
    (h1 : s.order.status ≠ COMPLETED) (h2 : s.order.status ≠ CANCELED)
    (ha : (s.items.all fun it =>
      hasOutflowSince s.movements it.product_id s.order.created_at) = true) :
    complete s now = (.ok, markCompleted s now) := by
  rw [complete, if_neg h1, if_neg h2, if_pos ha]

theorem complete_reserving (s : St) (now : Nat)
    (h1 : s.order.status ≠ COMPLETED) (h2 : s.order.status ≠ CANCELED)
    (ha : ¬(s.items.all fun it =>
      hasOutflowSince s.movements it.product_id s.order.created_at) = true)
    (hi : insufficientLines s = []) :
    complete s now = (.ok, markCompleted (reserveAll s now) now) := by
  rw [complete, if_neg h1, if_neg h2, if_neg ha, if_pos hi]

theorem complete_insufficient (s : St) (now : Nat)
    (h1 : s.order.status ≠ COMPLETED) (h2 : s.order.status ≠ CANCELED)
    (ha : ¬(s.items.all fun it =>
      hasOutflowSince s.movements it.product_id s.order.created_at) = true)
    (hi : insufficientLines s ≠ []) :
    complete s now = (.insufficientStock (insufficientLines s), s) := by
  rw [complete, if_neg h1, if_neg h2, if_neg ha, if_neg hi]

theorem add_item_closed (s : St) (pid qty now : Nat)
    (h : s.order.status = COMPLETED ∨ s.order.status = CANCELED) :
    add_item s pid qty now = (.orderClosed, s) := by
  rw [add_item, if_pos h]

theorem add_item_invalid (s : St) (pid qty now : Nat)
    (h : ¬(s.order.status = COMPLETED ∨ s.order.status = CANCELED))
    (hp : findProduct s.products pid = none) :
    add_item s pid qty now = (.validationError, s) := by
  rw [add_item, if_neg h, hp]

theorem add_item_insufficient (s : St) (pid qty now : Nat) (product : Product)
    (h : ¬(s.order.status = COMPLETED ∨ s.order.status = CANCELED))
    (hp : findProduct s.products pid = some product)
    (hs : product.stock < (qty : Int)) :
    add_item s pid qty now = (.insufficientStock product.name product.stock, s) := by
  rw [add_item, if_neg h, hp]
  exact if_pos hs

theorem add_item_merge (s : St) (pid qty now : Nat) (product : Product)
    (item : OrderItem)
    (h : ¬(s.order.status = COMPLETED ∨ s.order.status = CANCELED))
    (hp : findProduct s.products pid = some product)
    (hs : ¬product.stock < (qty : Int))
    (hit : findItem s.items pid = some item) :
    add_item s pid qty now =
      (.ok, addApply s pid qty now item.price (incFirst s.items pid qty)) := by
  rw [add_item, if_neg h, hp]
  dsimp only
  rw [if_neg hs, hit]

theorem add_item_new (s : St) (pid qty now : Nat) (product : Product)
    (h : ¬(s.order.status = COMPLETED ∨ s.order.status = CANCELED))
    (hp : findProduct s.products pid = some product)
    (hs : ¬product.stock < (qty : Int))
    (hit : findItem s.items pid = none) :
    add_item s pid qty now =
      (.ok, addApply s pid qty now product.price
        (s.items ++ [⟨pid, qty, product.price⟩])) := by
  rw [add_item, if_neg h, hp]
  dsimp only
  rw [if_neg hs, hit]

theorem remove_item_closed (s : St) (pid qty now : Nat)
    (h : s.order.status = COMPLETED ∨ s.order.status = CANCELED) :
    remove_item s pid qty now = (.orderClosed, s) := by
  rw [remove_item, if_pos h]

theorem remove_item_invalid (s : St) (pid qty now : Nat)
    (h : ¬(s.order.status = COMPLETED ∨ s.order.status = CANCELED))
    (hp : findProduct s.products pid = none) :
    remove_item s pid qty now = (.validationError, s) := by
  rw [remove_item, if_neg h, hp]

theorem remove_item_notfound (s : St) (pid qty now : Nat) (product : Product)
    (h : ¬(s.order.status = COMPLETED ∨ s.order.status = CANCELED))
    (hp : findProduct s.products pid = some product)
    (hit : findItem s.items pid = none) :
    remove_item s pid qty now = (.itemNotFound, s) := by
  rw [remove_item, if_neg h, hp, hit]

theorem remove_item_del (s : St) (pid qty now : Nat) (product : Product)
    (item : OrderItem)
    (h : ¬(s.order.status = COMPLETED ∨ s.order.status = CANCELED))
    (hp : findProduct s.products pid = some product)
    (hit : findItem s.items pid = some item)
    (hq : min qty item.quantity = item.quantity) :
    remove_item s pid qty now =
      (.ok, removeApply s pid item.quantity now
        ((item.quantity : ℚ) * item.price) (delFirst s.items pid)) := by
  rw [remove_item, if_neg h, hp, hit]
  simp [hq]

theorem remove_item_dec (s : St) (pid qty now : Nat) (product : Product)
    (item : OrderItem)
    (h : ¬(s.order.status = COMPLETED ∨ s.order.status = CANCELED))
    (hp : findProduct s.products pid = some product)
    (hit : findItem s.items pid = some item)
    (hq : ¬min qty item.quantity = item.quantity) :
    remove_item s pid qty now =
      (.ok, removeApply s pid (min qty item.quantity) now
        (((min qty item.quantity : ℕ) : ℚ) * item.price)
        (decFirst s.items pid (min qty item.quantity))) := by
  rw [remove_item, if_neg h, hp, hit]
  simp only [if_neg hq]

theorem cancel_of_completed (s : St) (now : Nat)
    (h : s.order.status = COMPLETED) :
    cancel s now = (.invalidTransition, s) := by
  rw [cancel, if_pos h]

theorem cancel_of_canceled (s : St) (now : Nat)
    (h1 : s.order.status ≠ COMPLETED) (h2 : s.order.status = CANCELED) :
    cancel s now = (.alreadyCanceled, s) := by
  rw [cancel, if_neg h1, if_pos h2]

theorem cancel_ok (s : St) (now : Nat)
    (h1 : s.order.status ≠ COMPLETED) (h2 : s.order.status ≠ CANCELED) :
    cancel s now = (.ok, { s with order := { s.order with
      status := CANCELED, last_change_at := now,
      last_change_type := CHANGE_CANCELED } }) := by
  rw [cancel, if_neg h1, if_neg h2]

theorem destroy_eq (s : St) (now : Nat) :
    destroy s now = (.serverError, s) := by
  rw [destroy, if_neg (by decide)]

/-! The total invariant and its preservation by every action. -/

theorem total_inv_complete (s : St) (now : Nat)
    (h : s.order.total = itemsTotal s.items) :
    (complete s now).2.order.total = itemsTotal (complete s now).2.items := by
  by_cases h1 : s.order.status = COMPLETED
  · rw [complete_of_completed s now h1]; exact h
  by_cases h2 : s.order.status = CANCELED
  · rw [complete_of_canceled s now h1 h2]; exact h
  by_cases ha : (s.items.all fun it =>
      hasOutflowSince s.movements it.product_id s.order.created_at) = true
  · rw [complete_applied s now h1 h2 ha]; exact h
  by_cases hi : insufficientLines s = []
  · rw [complete_reserving s now h1 h2 ha hi]
    dsimp only [markCompleted, reserveAll]
    exact h
  · rw [complete_insufficient s now h1 h2 ha hi]; exact h

theorem total_inv_add (s : St) (pid qty now : Nat)
    (h : s.order.total = itemsTotal s.items) :
    (add_item s pid qty now).2.order.total =
      itemsTotal (add_item s pid qty now).2.items := by
  by_cases hst : s.order.status = COMPLETED ∨ s.order.status = CANCELED
  · rw [add_item_closed s pid qty now hst]; exact h
  cases hp : findProduct s.products pid with
  | none => rw [add_item_invalid s pid qty now hst hp]; exact h
  | some product =>
    by_cases hs : product.stock < (qty : Int)
    · rw [add_item_insufficient s pid qty now product hst hp hs]; exact h
    cases hit : findItem s.items pid with
    | some item =>
      rw [add_item_merge s pid qty now product item hst hp hs hit]
      dsimp only [addApply]
      rw [itemsTotal_incFirst s.items pid qty item hit, h]
    | none =>
      rw [add_item_new s pid qty now product hst hp hs hit]
      dsimp only [addApply]
      rw [itemsTotal_append, h, itemsTotal_cons, itemsTotal_nil, lineTotal]
      ring

theorem total_inv_remove (s : St) (pid qty now : Nat)
    (h : s.order.total = itemsTotal s.items) :
    (remove_item s pid qty now).2.order.total =
      itemsTotal (remove_item s pid qty now).2.items := by
  by_cases hst : s.order.status = COMPLETED ∨ s.order.status = CANCELED
  · rw [remove_item_closed s pid qty now hst]; exact h
  cases hp : findProduct s.products pid with
  | none => rw [remove_item_invalid s pid qty now hst hp]; exact h
  | some product =>
    cases hit : findItem s.items pid with
    | none => rw [remove_item_notfound s pid qty now product hst hp hit]; exact h
    | some item =>
      by_cases hq : min qty item.quantity = item.quantity
      · rw [remove_item_del s pid qty now product item hst hp hit hq]
        dsimp only [removeApply]
        rw [itemsTotal_delFirst s.items pid item hit, h]
      · rw [remove_item_dec s pid qty now product item hst hp hit hq]
        dsimp only [removeApply]
        rw [itemsTotal_decFirst s.items pid (min qty item.quantity) item hit
          (Nat.min_le_right qty item.quantity), h]

theorem total_inv_cancel (s : St) (now : Nat)
    (h : s.order.total = itemsTotal s.items) :
    (cancel s now).2.order.total = itemsTotal (cancel s now).2.items := by
  by_cases h1 : s.order.status = COMPLETED
  · rw [cancel_of_completed s now h1]; exact h
  by_cases h2 : s.order.status = CANCELED
  · rw [cancel_of_canceled s now h1 h2]; exact h
  · rw [cancel_ok s now h1 h2]; exact h

theorem total_inv_destroy (s : St) (now : Nat)
    (h : s.order.total = itemsTotal s.items) :
    (destroy s now).2.order.total = itemsTotal (destroy s now).2.items := by
  rw [destroy_eq s now]; exact h

/-- C1: for every order, after every successful mutating operation
(AddItem, RemoveItem, Complete, Cancel, Delete) — that is, in every
state reachable from order creation through the five actions — the
order's total equals the sum over its current items of quantity times
the item's snapshot price. -/
theorem C1_total_invariant (s : St) (h : Reach s) :
    s.order.total = itemsTotal s.items := by
  induction h with
  | init name created ps movs => rfl
  | addStep s pid qty now _ ih => exact total_inv_add s pid qty now ih
  | removeStep s pid qty now _ ih => exact total_inv_remove s pid qty now ih
  | completeStep s now _ ih => exact total_inv_complete s now ih
  | cancelStep s now _ ih => exact total_inv_cancel s now ih
  | destroyStep s now _ ih => exact total_inv_destroy s now ih

/-- C1 witness: the invariant evaluated on the state reached by adding
2 units of product 1 to a fresh order. -/
theorem C1_total_invariant_witness :
    (add_item c1St 1 2 3).2.order.total = itemsTotal (add_item c1St 1 2 3).2.items :=
  C1_total_invariant _ (Reach.addStep c1St 1 2 3 (Reach.init "a" 0 [⟨1, "A", 10, 5⟩] []))

/-! Status-string facts. -/

theorem not_closed_of_pending (s : St) (h : s.order.status = PENDING) :
    ¬(s.order.status = COMPLETED ∨ s.order.status = CANCELED) := by
  rw [h]; decide

theorem ne_completed_of_pending (s : St) (h : s.order.status = PENDING) :
    s.order.status ≠ COMPLETED := by
  rw [h]; decide

theorem ne_canceled_of_pending (s : St) (h : s.order.status = PENDING) :
    s.order.status ≠ CANCELED := by
  rw [h]; decide

/-- C2 counterexample: the claim as stated fails.  The order is pending,
its single item requests 5 units of a product whose stock is only 3, yet
complete succeeds (already-applied path: the product has a salida/venta
movement timestamped since order creation), instead of failing with an
insufficient-stock report. -/
theorem C2_counterexample :
    c2St.order.status = PENDING ∧
    (⟨1, 5, 10⟩ : OrderItem) ∈ c2St.items ∧
    findProduct c2St.products 1 = some ⟨1, "P", 10, 3⟩ ∧
    ((3 : Int) < ((5 : Nat) : Int)) ∧
    complete c2St 7 = (CompleteRes.ok, markCompleted c2St 7) := by
  refine ⟨rfl, by decide, by decide, by decide, ?_⟩
  decide

/-- C2 (amended): for every pending order in which the stock deduction is
not already applied (at least one item's product lacks a salida/venta
movement since order creation), if at least one item's product has stock
below that item's quantity, complete fails with an insufficient-stock
report that lists every insufficient item with its requested quantity and
available stock (and only such items), and the state — every product's
stock and every order field — is unchanged. -/
theorem C2_insufficient_stock (s : St) (now : Nat)
    (hst : s.order.status = PENDING)
    (hna : ¬(s.items.all fun it =>
      hasOutflowSince s.movements it.product_id s.order.created_at) = true)
    (it₀ : OrderItem) (p₀ : Product) (hmem : it₀ ∈ s.items)
    (hp₀ : findProduct s.products it₀.product_id = some p₀)
    (hins : p₀.stock < (it₀.quantity : Int)) :
    complete s now = (.insufficientStock (insufficientLines s), s) ∧
    (∀ it ∈ s.items, ∀ p, findProduct s.products it.product_id = some p →
      p.stock < (it.quantity : Int) →
      (⟨it.product_id, p.name, it.quantity, p.stock⟩ : InsuffLine) ∈
        insufficientLines s) ∧
    (∀ line ∈ insufficientLines s, ∃ it ∈ s.items, ∃ p,
      findProduct s.products it.product_id = some p ∧
      p.stock < (it.quantity : Int) ∧
      line = ⟨it.product_id, p.name, it.quantity, p.stock⟩) := by
  have hlisted : ∀ it ∈ s.items, ∀ p,
      findProduct s.products it.product_id = some p →
      p.stock < (it.quantity : Int) →
      (⟨it.product_id, p.name, it.quantity, p.stock⟩ : InsuffLine) ∈
        insufficientLines s := by
    intro it hit p hp hlt
    apply List.mem_filterMap.mpr
    exact ⟨it, hit, by rw [hp]; exact if_pos hlt⟩
  refine ⟨?_, hlisted, ?_⟩
  · have hne : insufficientLines s ≠ [] :=
      List.ne_nil_of_mem (hlisted it₀ hmem p₀ hp₀ hins)
    exact complete_insufficient s now (ne_completed_of_pending s hst)
      (ne_canceled_of_pending s hst) hna hne
  · intro line hline
    obtain ⟨it, hit, hf⟩ := List.mem_filterMap.mp hline
    refine ⟨it, hit, ?_⟩
    cases hp : findProduct s.products it.product_id with
    | none => rw [hp] at hf; cases hf
    | some p =>
      rw [hp] at hf
      dsimp only at hf
      by_cases hlt : p.stock < (it.quantity : Int)
      · rw [if_pos hlt] at hf
        cases hf
        exact ⟨p, rfl, hlt, rfl⟩
      · rw [if_neg hlt] at hf
        cases hf

/-- C2 witness: the amended theorem applied to a pending order with an
insufficient line P (requested 5, available 3) and a sufficient line Q,
with no movement log. -/
theorem C2_insufficient_stock_witness :
    complete c2PendSt 9 = (.insufficientStock (insufficientLines c2PendSt), c2PendSt) ∧
    insufficientLines c2PendSt = [⟨1, "P", 5, 3⟩] :=
  ⟨(C2_insufficient_stock c2PendSt 9 rfl (by decide) ⟨1, 5, 10⟩ ⟨1, "P", 10, 3⟩
      (by decide) (by decide) (by decide)).1,
    by decide⟩

/-- C3: complete on a completed order fails with alreadyCompleted and
returns the state unchanged (in particular no product's stock changes);
complete on a canceled order fails with invalidTransition. -/
theorem C3_complete_terminal (s : St) (now : Nat) :
    (s.order.status = COMPLETED → complete s now = (.alreadyCompleted, s)) ∧
    (s.order.status = CANCELED → complete s now = (.invalidTransition, s)) := by
  constructor
  · intro h
    exact complete_of_completed s now h
  · intro h
    refine complete_of_canceled s now ?_ h
    rw [h]; decide

/-- C3 witness: both failure branches evaluated on concrete completed and
canceled orders. -/
theorem C3_complete_terminal_witness :
    complete c3CompSt 5 = (.alreadyCompleted, c3CompSt) ∧
    complete c3CancSt 5 = (.invalidTransition, c3CancSt) :=
  ⟨(C3_complete_terminal c3CompSt 5).1 rfl, (C3_complete_terminal c3CancSt 5).2 rfl⟩

/-- C4: for a pending order holding an item of quantity h and a requested
decrease q > 0, remove_item removes exactly min(q, h) units: the product's
stock grows by exactly min(q, h), the total shrinks by exactly
min(q, h) times the item's snapshot price (never by the requested q), the
item row is deleted when min(q, h) = h and otherwise its quantity is
decremented by min(q, h). -/
theorem C4_remove_min (s : St) (pid qty now : Nat) (p : Product)
    (item : OrderItem)
    (hst : s.order.status = PENDING) (hq : 0 < qty)
    (hp : findProduct s.products pid = some p)
    (hit : findItem s.items pid = some item)
    (hc : pidCount s.items pid ≤ 1) :
    (remove_item s pid qty now).1 = .ok ∧
    findProduct (remove_item s pid qty now).2.products pid =
      some { p with stock := p.stock + ((min qty item.quantity : ℕ) : Int) } ∧
    (remove_item s pid qty now).2.order.total =
      s.order.total - ((min qty item.quantity : ℕ) : ℚ) * item.price ∧
    (min qty item.quantity = item.quantity →
      findItem (remove_item s pid qty now).2.items pid = none) ∧
    (min qty item.quantity ≠ item.quantity →
      findItem (remove_item s pid qty now).2.items pid =
        some { item with quantity := item.quantity - min qty item.quantity }) := by
  have hnc := not_closed_of_pending s hst
  by_cases hdel : min qty item.quantity = item.quantity
  · rw [remove_item_del s pid qty now p item hnc hp hit hdel]
    dsimp only [removeApply]
    rw [findProduct_updStock_self, hp, hdel]
    refine ⟨rfl, rfl, rfl, fun _ => ?_, fun hcontra => absurd rfl hcontra⟩
    exact findItem_delFirst s.items pid item hit hc
  · rw [remove_item_dec s pid qty now p item hnc hp hit hdel]
    dsimp only [removeApply]
    rw [findProduct_updStock_self, hp]
    refine ⟨rfl, rfl, rfl, fun hcontra => absurd hcontra hdel, fun _ => ?_⟩
    exact findItem_decFirst s.items pid (min qty item.quantity) item hit

/-- C4 witness: held quantity 2, requested 5: exactly 2 units come back,
the row is deleted and the total drops by 2 times the snapshot price. -/
theorem C4_remove_min_witness :
    0 < 5 ∧
    ((remove_item c4St 1 5 3).1 = .ok ∧
    findProduct (remove_item c4St 1 5 3).2.products 1 =
      some { (⟨1, "P", 10, 0⟩ : Product) with
        stock := (0 : Int) + ((min 5 2 : ℕ) : Int) } ∧
    (remove_item c4St 1 5 3).2.order.total =
      c4St.order.total - ((min 5 2 : ℕ) : ℚ) * 10 ∧
    (min 5 2 = 2 →
      findItem (remove_item c4St 1 5 3).2.items 1 = none) ∧
    (min 5 2 ≠ 2 →
      findItem (remove_item c4St 1 5 3).2.items 1 =
        some { (⟨1, 2, 10⟩ : OrderItem) with quantity := 2 - min 5 2 })) :=
  ⟨by decide,
    C4_remove_min c4St 1 5 3 ⟨1, "P", 10, 0⟩ ⟨1, 2, 10⟩ rfl (by decide)
      (by decide) (by decide) (by decide)⟩

theorem remove_item_stock_total (s : St) (pid qty now : Nat) (p : Product)
    (item : OrderItem)
    (hnc : ¬(s.order.status = COMPLETED ∨ s.order.status = CANCELED))
    (hp : findProduct s.products pid = some p)
    (hit : findItem s.items pid = some item) :
    (findProduct (remove_item s pid qty now).2.products pid).map Product.stock =
      some (p.stock + ((min qty item.quantity : ℕ) : Int)) ∧
    (remove_item s pid qty now).2.order.total =
      s.order.total - ((min qty item.quantity : ℕ) : ℚ) * item.price := by
  by_cases hdel : min qty item.quantity = item.quantity
  · rw [remove_item_del s pid qty now p item hnc hp hit hdel]
    dsimp only [removeApply]
    rw [findProduct_updStock_self, hp, hdel]
    exact ⟨rfl, rfl⟩
  · rw [remove_item_dec s pid qty now p item hnc hp hit hdel]
    dsimp only [removeApply]
    rw [findProduct_updStock_self, hp]
    exact ⟨rfl, rfl⟩

/-- C5: for a pending order and a product with sufficient stock,
add_item of q > 0 units followed by remove_item of the same q units on
the same product returns the product's stock and the order's total to
their values before the add_item call. -/
theorem C5_roundtrip (s : St) (pid qty t₁ t₂ : Nat) (p : Product)
    (hst : s.order.status = PENDING) (hq : 0 < qty)
    (hp : findProduct s.products pid = some p)
    (hs : ¬p.stock < (qty : Int)) :
    (findProduct (remove_item (add_item s pid qty t₁).2 pid qty t₂).2.products
        pid).map Product.stock = some p.stock ∧
    (remove_item (add_item s pid qty t₁).2 pid qty t₂).2.order.total =
      s.order.total := by
  have hnc := not_closed_of_pending s hst
  cases hit : findItem s.items pid with
  | some item =>
    rw [add_item_merge s pid qty t₁ p item hnc hp hs hit]
    dsimp only
    have hnc₁ : ¬((addApply s pid qty t₁ item.price
        (incFirst s.items pid qty)).order.status = COMPLETED ∨
        (addApply s pid qty t₁ item.price
          (incFirst s.items pid qty)).order.status = CANCELED) := hnc
    have hp₁ : findProduct (addApply s pid qty t₁ item.price
        (incFirst s.items pid qty)).products pid =
        some { p with stock := p.stock + -(qty : Int) } := by
      dsimp only [addApply]
      rw [findProduct_updStock_self, hp]
      rfl
    have hit₁ : findItem (addApply s pid qty t₁ item.price
        (incFirst s.items pid qty)).items pid =
        some { item with quantity := item.quantity + qty } :=
      findItem_incFirst s.items pid qty item hit
    obtain ⟨hstock₂, htotal₂⟩ := remove_item_stock_total
      (addApply s pid qty t₁ item.price (incFirst s.items pid qty)) pid qty t₂
      { p with stock := p.stock + -(qty : Int) }
      { item with quantity := item.quantity + qty } hnc₁ hp₁ hit₁
    have hmin : min qty (item.quantity + qty) = qty :=
      min_eq_left (Nat.le_add_left qty item.quantity)
    constructor
    · rw [hstock₂]
      dsimp only
      rw [hmin]
      congr 1
      omega
    · rw [htotal₂]
      dsimp only [addApply]
      rw [hmin]
      ring
  | none =>
    rw [add_item_new s pid qty t₁ p hnc hp hs hit]
    dsimp only
    have hnc₁ : ¬((addApply s pid qty t₁ p.price
        (s.items ++ [⟨pid, qty, p.price⟩])).order.status = COMPLETED ∨
        (addApply s pid qty t₁ p.price
          (s.items ++ [⟨pid, qty, p.price⟩])).order.status = CANCELED) := hnc
    have hp₁ : findProduct (addApply s pid qty t₁ p.price
        (s.items ++ [⟨pid, qty, p.price⟩])).products pid =
        some { p with stock := p.stock + -(qty : Int) } := by
      dsimp only [addApply]
      rw [findProduct_updStock_self, hp]
      rfl
    have hit₁ : findItem (addApply s pid qty t₁ p.price
        (s.items ++ [⟨pid, qty, p.price⟩])).items pid =
        some ⟨pid, qty, p.price⟩ :=
      findItem_append_single s.items pid ⟨pid, qty, p.price⟩ hit rfl
    obtain ⟨hstock₂, htotal₂⟩ := remove_item_stock_total
      (addApply s pid qty t₁ p.price (s.items ++ [⟨pid, qty, p.price⟩])) pid qty t₂
      { p with stock := p.stock + -(qty : Int) } ⟨pid, qty, p.price⟩ hnc₁ hp₁ hit₁
    constructor
    · rw [hstock₂]
      dsimp only
      rw [min_self]
      congr 1
      omega
    · rw [htotal₂]
      dsimp only [addApply]
      rw [min_self]
      ring

/-- C5 witness: adding 2 units of product 1 to a fresh order and removing
them again restores stock 5 and total 0. -/
theorem C5_roundtrip_witness :
    0 < 2 ∧
    ((findProduct (remove_item (add_item c5St 1 2 3).2 1 2 4).2.products 1).map
        Product.stock = some (5 : Int) ∧
    (remove_item (add_item c5St 1 2 3).2 1 2 4).2.order.total =
      c5St.order.total) :=
  ⟨by decide,
    C5_roundtrip c5St 1 2 3 4 ⟨1, "A", 10, 5⟩ rfl (by decide) (by decide)
      (by decide)⟩

/-- C6: when add_item is called for a product that already has an item
row, the row's quantity grows by the requested quantity while its stored
price stays the original snapshot price, and the total grows by quantity
times that snapshot price — not the product's current price; when no row
exists, a new row is created at the product's current price. -/
theorem C6_snapshot_price (s : St) (pid qty now : Nat) (p : Product)
    (hst : s.order.status = PENDING)
    (hp : findProduct s.products pid = some p)
    (hs : ¬p.stock < (qty : Int)) :
    (∀ item, findItem s.items pid = some item →
      (add_item s pid qty now).1 = .ok ∧
      findItem (add_item s pid qty now).2.items pid =
        some { item with quantity := item.quantity + qty } ∧
      (add_item s pid qty now).2.order.total =
        s.order.total + (qty : ℚ) * item.price) ∧
    (findItem s.items pid = none →
      (add_item s pid qty now).1 = .ok ∧
      (add_item s pid qty now).2.items = s.items ++ [⟨pid, qty, p.price⟩] ∧
      (add_item s pid qty now).2.order.total =
        s.order.total + (qty : ℚ) * p.price) := by
  have hnc := not_closed_of_pending s hst
  constructor
  · intro item hit
    rw [add_item_merge s pid qty now p item hnc hp hs hit]
    exact ⟨rfl, findItem_incFirst s.items pid qty item hit, rfl⟩
  · intro hit
    rw [add_item_new s pid qty now p hnc hp hs hit]
    exact ⟨rfl, rfl, rfl⟩

/-- C6 witness: merging 3 more units onto a row with snapshot price 10
while the product's current price is 12 keeps the price 10 and adds
3 times 10 to the total. -/
theorem C6_snapshot_price_witness :
    (add_item c6St 1 3 2).1 = .ok ∧
    findItem (add_item c6St 1 3 2).2.items 1 =
      some { (⟨1, 2, 10⟩ : OrderItem) with quantity := 2 + 3 } ∧
    (add_item c6St 1 3 2).2.order.total =
      c6St.order.total + (3 : ℚ) * 10 :=
  (C6_snapshot_price c6St 1 3 2 ⟨1, "P", 12, 5⟩ rfl (by decide) (by decide)).1
    ⟨1, 2, 10⟩ (by decide)

/-- C7: no action moves an order's status out of completed or canceled:
if the status is completed or canceled before any of the five actions,
it is identical after it. -/
theorem C7_terminal_frozen (s : St) (pid qty now : Nat)
    (h : s.order.status = COMPLETED ∨ s.order.status = CANCELED) :
    (complete s now).2.order.status = s.order.status ∧
    (cancel s now).2.order.status = s.order.status ∧
    (add_item s pid qty now).2.order.status = s.order.status ∧
    (remove_item s pid qty now).2.order.status = s.order.status ∧
    (destroy s now).2.order.status = s.order.status := by
  refine ⟨?_, ?_, ?_, ?_, ?_⟩
  · by_cases h1 : s.order.status = COMPLETED
    · rw [complete_of_completed s now h1]
    · rw [complete_of_canceled s now h1 (h.resolve_left h1)]
  · by_cases h1 : s.order.status = COMPLETED
    · rw [cancel_of_completed s now h1]
    · rw [cancel_of_canceled s now h1 (h.resolve_left h1)]
  · rw [add_item_closed s pid qty now h]
  · rw [remove_item_closed s pid qty now h]
  · rw [destroy_eq s now]

/-- C7 witness: the five actions evaluated on a completed order leave the
status untouched. -/
theorem C7_terminal_frozen_witness :
    (complete c7St 5).2.order.status = c7St.order.status ∧
    (cancel c7St 5).2.order.status = c7St.order.status ∧
    (add_item c7St 1 2 5).2.order.status = c7St.order.status ∧
    (remove_item c7St 1 2 5).2.order.status = c7St.order.status ∧
    (destroy c7St 5).2.order.status = c7St.order.status :=
  C7_terminal_frozen c7St 1 2 5 (Or.inl rfl)

/-- C8: a successful cancel changes only status, last_change_at and
last_change_type: products (hence stock), the movement log, the item rows
and the remaining order fields are untouched, even with reserved items. -/
theorem C8_cancel_frame (s : St) (now : Nat)
    (h1 : s.order.status ≠ COMPLETED) (h2 : s.order.status ≠ CANCELED) :
    (cancel s now).1 = .ok ∧
    (cancel s now).2.products = s.products ∧
    (cancel s now).2.movements = s.movements ∧
    (cancel s now).2.items = s.items ∧
    (cancel s now).2.order.total = s.order.total ∧
    (cancel s now).2.order.created_at = s.order.created_at ∧
    (cancel s now).2.order.customer_name = s.order.customer_name ∧
    (cancel s now).2.order.status = CANCELED ∧
    (cancel s now).2.order.last_change_at = now ∧
    (cancel s now).2.order.last_change_type = CHANGE_CANCELED := by
  rw [cancel_ok s now h1 h2]
  exact ⟨rfl, rfl, rfl, rfl, rfl, rfl, rfl, rfl, rfl, rfl⟩

/-- C8 witness: canceling a pending order that holds a reserved item
leaves products, movements and items unchanged. -/
theorem C8_cancel_frame_witness :
    (cancel c8St 9).1 = .ok ∧
    (cancel c8St 9).2.products = c8St.products ∧
    (cancel c8St 9).2.movements = c8St.movements ∧
    (cancel c8St 9).2.items = c8St.items ∧
    (cancel c8St 9).2.order.total = c8St.order.total ∧
    (cancel c8St 9).2.order.created_at = c8St.order.created_at ∧
    (cancel c8St 9).2.order.customer_name = c8St.order.customer_name ∧
    (cancel c8St 9).2.order.status = CANCELED ∧
    (cancel c8St 9).2.order.last_change_at = 9 ∧
    (cancel c8St 9).2.order.last_change_type = CHANGE_CANCELED :=
  C8_cancel_frame c8St 9 (by decide) (by decide)

/-- C9: the claim is contradicted by the code: destroy never succeeds.
The Order model (orders/models.py) has no deleted_at field, so
save(update_fields=["deleted_at", ...]) raises ValueError, the request
fails with a server error, and no state is changed — the order is neither
soft-deleted nor moved to canceled. -/
theorem C9_destroy_always_fails (s : St) (now : Nat) :
    destroy s now = (.serverError, s) ∧ "deleted_at" ∉ orderFieldNames :=
  ⟨destroy_eq s now, by decide⟩

/-- C10: add_item itself decrements the product's stock and records a
salida/venta movement at add time; consequently, for a pending order all
of whose items' products have such a movement timestamped at or after
created_at, complete takes the already-applied path: it changes no
product and appends no movement, yet marks the order completed with
last_change_type completed. -/
theorem C10_add_reserves_complete_skips (s : St) (pid qty now : Nat) :
    (∀ p, s.order.status = PENDING → findProduct s.products pid = some p →
      ¬p.stock < (qty : Int) →
      (findProduct (add_item s pid qty now).2.products pid).map Product.stock =
        some (p.stock - (qty : Int)) ∧
      (add_item s pid qty now).2.movements =
        s.movements ++ [⟨pid, qty, "salida", "venta", now⟩]) ∧
    (s.order.status = PENDING →
      (∀ it ∈ s.items,
        hasOutflowSince s.movements it.product_id s.order.created_at = true) →
      (complete s now).1 = .ok ∧
      (complete s now).2.products = s.products ∧
      (complete s now).2.movements = s.movements ∧
      (complete s now).2.order.status = COMPLETED ∧
      (complete s now).2.order.last_change_type = CHANGE_COMPLETED) := by
  constructor
  · intro p hst hp hs
    have hnc := not_closed_of_pending s hst
    cases hit : findItem s.items pid with
    | some item =>
      rw [add_item_merge s pid qty now p item hnc hp hs hit]
      dsimp only [addApply]
      rw [findProduct_updStock_self, hp, Int.sub_eq_add_neg]
      exact ⟨rfl, rfl⟩
    | none =>
      rw [add_item_new s pid qty now p hnc hp hs hit]
      dsimp only [addApply]
      rw [findProduct_updStock_self, hp, Int.sub_eq_add_neg]
      exact ⟨rfl, rfl⟩
  · intro hst hall
    have ha : (s.items.all fun it =>
        hasOutflowSince s.movements it.product_id s.order.created_at) = true :=
      List.all_eq_true.mpr hall
    rw [complete_applied s now (ne_completed_of_pending s hst)
      (ne_canceled_of_pending s hst) ha]
    exact ⟨rfl, rfl, rfl, rfl, rfl⟩

/-- C10 witness: adding 2 units moves stock from 3 to 1 and appends the
movement; completing the order whose only item already shows a
salida/venta movement mutates neither products nor movements. -/
theorem C10_add_reserves_complete_skips_witness :
    ((findProduct (add_item c10St 1 2 9).2.products 1).map Product.stock =
      some ((3 : Int) - ((2 : ℕ) : Int)) ∧
    (add_item c10St 1 2 9).2.movements =
      c10St.movements ++ [⟨1, 2, "salida", "venta", 9⟩]) ∧
    ((complete c10St 9).1 = .ok ∧
    (complete c10St 9).2.products = c10St.products ∧
    (complete c10St 9).2.movements = c10St.movements ∧
    (complete c10St 9).2.order.status = COMPLETED ∧
    (complete c10St 9).2.order.last_change_type = CHANGE_COMPLETED) :=
  ⟨(C10_add_reserves_complete_skips c10St 1 2 9).1 ⟨1, "P", 10, 3⟩ rfl
      (by decide) (by decide),
    (C10_add_reserves_complete_skips c10St 1 2 9).2 rfl (by decide)⟩

end OrderApi
